import Mathlib

/-!
Shallow embedding of the scheduling and resource-arbitration engine of
src/pa2.c (a single-processor, tick-quantized scheduling simulator).

Modelling conventions:
- A process record holds the fields the engine reads and writes
  (status, age, lifespan, prio, prio_orig).  Processes are identified by
  a natural-number id; the process table is a total function from ids to
  records (the C code mutates process records through pointers that may
  be linked into several global lists, so a heap-style table is the
  faithful rendering).
- Queues (readyqueue, per-resource waitqueue, the per-policy auxiliary
  stacks) hold process ids.  The intrusive list operations of the source
  become list operations: list_add is cons (head insertion),
  list_add_tail is append at the tail, list_del_init on a scanned node is
  List.erase of its id.
- The C resource table has NR_RESOURCES entries and the code indexes it
  with no range check (resources + resource_id).  The model makes the
  table a total function on Int: every index is a slot, and indices
  outside the range 0 .. NR_RESOURCES - 1 stand for the out-of-bounds
  memory the unchecked C access would touch.
- Fallible steps return Option: none models a failed assert or an
  undefined read (list_first_entry taken on an empty list and then
  dereferenced, or a NULL current dereferenced).
- MAX_PRIO is defined in a framework header that is not part of the
  repository sources; it is threaded through as an explicit parameter
  maxPrio.
-/

/-- Process status, from process.h as used by the source
(PROCESS_READY, PROCESS_RUNNING, PROCESS_BLOCKED, PROCESS_TERMINATED). -/
inductive Status where
  | READY
  | RUNNING
  | BLOCKED
  | TERMINATED
deriving DecidableEq

/-- The fields of struct process that the engine reads and writes. -/
structure Process where
  status : Status
  age : Nat
  lifespan : Nat
  prio : Nat
  prio_orig : Nat
deriving DecidableEq

/-- struct resource: an optional owner and a wait collection. -/
structure Resource where
  owner : Option Nat
  waitqueue : List Nat
deriving DecidableEq

/-- The global mutable state the engine works on: the process table, the
current process pointer, the readyqueue, the resource table, and the four
per-policy auxiliary stacks (rr_stack is not needed by any claim). -/
structure State where
  procs : Nat → Process
  current : Option Nat
  readyqueue : List Nat
  resources : Int → Resource
  prio_stack : List Nat
  pa_stack : List Nat
  pcp_stack : List Nat
  pip_stack : List Nat

/-- One linear scan keeping the first element that is strictly better than
everything seen so far, starting from accumulator b.  This is the shape of
every scan loop in the source (get_highest_prio, get_highest_prio_wait,
get_shortest): first-seen wins on ties. -/
def scanMaxFrom {α : Type} [LinearOrder α] (key : Nat → α) (b : Nat) (l : List Nat) : Nat :=
  l.foldl (fun best p => if key best < key p then p else best) b

/-- The source scans start from list_first_entry and walk the whole list;
on an empty list list_first_entry yields a garbage pointer, modelled as
none. -/
def scanMax {α : Type} [LinearOrder α] (key : Nat → α) : List Nat → Option Nat
  | [] => none
  | h :: t => some (scanMaxFrom key h (h :: t))

/-- Minimizing variant of scanMaxFrom (used by get_shortest). -/
def scanMinFrom {α : Type} [LinearOrder α] (key : Nat → α) (b : Nat) (l : List Nat) : Nat :=
  l.foldl (fun best p => if key p < key best then p else best) b

/-- Minimizing variant of scanMax. -/
def scanMin {α : Type} [LinearOrder α] (key : Nat → α) : List Nat → Option Nat
  | [] => none
  | h :: t => some (scanMinFrom key h (h :: t))

/-- The drain loops written with list_add: each element is removed from the
stack and pushed onto the HEAD of the readyqueue (so the order reverses). -/
def drainHead (stack rq : List Nat) : List Nat :=
  stack.foldl (fun q p => p :: q) rq

/-- The drain loops written with list_add_tail: each element is appended to
the TAIL of the readyqueue (order preserved). -/
def drainTail (stack rq : List Nat) : List Nat :=
  stack.foldl (fun q p => q ++ [p]) rq

/-- fcfs_acquire (src/pa2.c lines 59-82).  If the resource is unowned the
caller takes it and the call returns true; otherwise the caller is marked
BLOCKED, appended to the tail of the waitqueue, and the call returns
false.  There is no range check on resource_id: the slot at any index is
accessed directly. -/
def fcfs_acquire (s : State) (resource_id : Int) : Option (Bool × State) :=
  match s.current with
  | none => none
  | some c =>
    match (s.resources resource_id).owner with
    | none =>
      some (true, { s with
        resources := Function.update s.resources resource_id
          ({ s.resources resource_id with owner := some c }) })
    | some _ =>
      some (false, { s with
        procs := Function.update s.procs c { s.procs c with status := Status.BLOCKED },
        resources := Function.update s.resources resource_id
          { s.resources resource_id with waitqueue := (s.resources resource_id).waitqueue ++ [c] } })

/-- fcfs_release (src/pa2.c lines 93-129).  Asserts the caller owns the
resource (none on violation), clears ownership, and if the waitqueue is
non-empty removes its HEAD, asserts it is BLOCKED, marks it READY and
appends it to the readyqueue tail.  No new owner is assigned. -/
def fcfs_release (s : State) (resource_id : Int) : Option State :=
  if (s.resources resource_id).owner = s.current then
    match (s.resources resource_id).waitqueue with
    | [] => some { s with
        resources := Function.update s.resources resource_id
          ({ s.resources resource_id with owner := none }) }
    | waiter :: rest =>
      if (s.procs waiter).status = Status.BLOCKED then
        some { s with
          procs := Function.update s.procs waiter { s.procs waiter with status := Status.READY },
          readyqueue := s.readyqueue ++ [waiter],
          resources := Function.update s.resources resource_id
            { s.resources resource_id with owner := none, waitqueue := rest } }
      else none
  else none

/-- remain_time (src/pa2.c lines 225-228): lifespan - age as a signed int. -/
def remain_time (p : Process) : Int :=
  (p.lifespan : Int) - (p.age : Int)

/-- get_shortest (src/pa2.c lines 230-242): linear scan of the readyqueue
for the entry with the smallest remaining time, first-seen wins on ties.
On an empty readyqueue the C code computes a garbage first entry
(modelled none); the only use of that garbage value is a pointer
comparison in stcf_schedule, which is then necessarily unequal. -/
def get_shortest (s : State) : Option Nat :=
  scanMin (fun p => remain_time (s.procs p)) s.readyqueue

/-- The pick_next tail of stcf_schedule (lines 262-273). -/
def stcf_pick_next (s : State) : Option (Option Nat × State) :=
  if s.readyqueue = [] then some (none, s)
  else
    match get_shortest s with
    | none => none
    | some next => some (some next, { s with readyqueue := s.readyqueue.erase next })

/-- stcf_schedule (src/pa2.c lines 244-277).  A runnable current process is
compared (by node identity) with get_shortest over the readyqueue; since
the current process is never linked in the readyqueue, the comparison
fails whenever the readyqueue is non-empty (and also on the
garbage/none value of an empty readyqueue), so the current process is
pushed onto the HEAD of the readyqueue (list_add) and pick_next then
re-selects the shortest, with the scan starting at the current process so
ties keep it. -/
def stcf_schedule (s : State) : Option (Option Nat × State) :=
  match s.current with
  | none => stcf_pick_next s
  | some c =>
    if (s.procs c).status = Status.BLOCKED then stcf_pick_next s
    else if (s.procs c).age < (s.procs c).lifespan then
      if get_shortest s = some c then some (some c, s)
      else stcf_pick_next { s with readyqueue := c :: s.readyqueue }
    else stcf_pick_next s

/-- prio_acquire (src/pa2.c lines 390-400): identical to fcfs_acquire. -/
def prio_acquire (s : State) (resource_id : Int) : Option (Bool × State) :=
  match s.current with
  | none => none
  | some c =>
    match (s.resources resource_id).owner with
    | none =>
      some (true, { s with
        resources := Function.update s.resources resource_id
          ({ s.resources resource_id with owner := some c }) })
    | some _ =>
      some (false, { s with
        procs := Function.update s.procs c { s.procs c with status := Status.BLOCKED },
        resources := Function.update s.resources resource_id
          { s.resources resource_id with waitqueue := (s.resources resource_id).waitqueue ++ [c] } })

/-- get_highest_prio_wait (src/pa2.c lines 402-409): scan of the waitqueue
of r for the greatest prio, first-seen wins on ties. -/
def get_highest_prio_wait (procs : Nat → Process) (r : Resource) : Option Nat :=
  scanMax (fun p => (procs p).prio) r.waitqueue

/-- The wake-up block shared verbatim by prio_release (lines 416-425),
pcp_release (lines 726-735) and pip_release (lines 879-888): if the
waitqueue is non-empty, pick the highest-priority waiter, assert it is
BLOCKED, unlink it, mark it READY and append it to the readyqueue tail. -/
def wake_one (s : State) (rid : Int) : Option State :=
  match get_highest_prio_wait s.procs (s.resources rid) with
  | none => some s
  | some waiter =>
    if (s.procs waiter).status = Status.BLOCKED then
      some { s with
        procs := Function.update s.procs waiter { s.procs waiter with status := Status.READY },
        readyqueue := s.readyqueue ++ [waiter],
        resources := Function.update s.resources rid
          { s.resources rid with waitqueue := (s.resources rid).waitqueue.erase waiter } }
    else none

/-- prio_release (src/pa2.c lines 411-427): assert the caller is the owner,
clear ownership, then wake the highest-priority waiter. -/
def prio_release (s : State) (resource_id : Int) : Option State :=
  if (s.resources resource_id).owner = s.current then
    wake_one { s with
      resources := Function.update s.resources resource_id
        ({ s.resources resource_id with owner := none }) } resource_id
  else none

/-- get_highest_prio (src/pa2.c lines 440-452): scan of the readyqueue for
the greatest prio, first-seen wins on ties; garbage (none) on an empty
readyqueue. -/
def get_highest_prio (s : State) : Option Nat :=
  scanMax (fun p => (s.procs p).prio) s.readyqueue

/-- get_stack_prio (src/pa2.c lines 454-456): prio of the head of
prio_stack; reads through a garbage pointer (none) when the stack is
empty. -/
def get_stack_prio (s : State) : Option Nat :=
  s.prio_stack.head?.map (fun p => (s.procs p).prio)

/-- Result of the code before the pick_next label of a priority-family
schedule function: either return this process at once (ret), or fall
through to pick_next on the given intermediate state (pick). -/
inductive Prep where
  | ret (c : Nat) (s : State)
  | pick (s : State)

/-- Observation helper: the value of a list-valued field of the state a
prepare step hands to pick_next. -/
def prepView (f : State → List Nat) : Option Prep → Option (List Nat)
  | some (Prep.pick s) => some (f s)
  | some (Prep.ret _ _) => none
  | none => none

/-- The code of prio_schedule before the pick_next label (src/pa2.c lines
458-497).  A runnable current process whose prio equals the readyqueue
maximum is returned when readyqueue and prio_stack are both empty, and is
otherwise pushed onto prio_stack; when the maximum differs, the current
process is pushed onto prio_stack if the stack head has equal prio, and
otherwise onto the HEAD of the readyqueue (list_add, line 493).  Both
get_highest_prio and get_stack_prio are evaluated before any emptiness
check of the list they read. -/
def prio_prepare (s : State) : Option Prep :=
  match s.current with
  | none => some (Prep.pick s)
  | some c =>
    if (s.procs c).status = Status.BLOCKED then some (Prep.pick s)
    else if (s.procs c).age < (s.procs c).lifespan then
      match get_highest_prio s with
      | none => none
      | some h =>
        if (s.procs h).prio = (s.procs c).prio then
          if s.readyqueue = [] ∧ s.prio_stack = [] then some (Prep.ret c s)
          else some (Prep.pick { s with prio_stack := c :: s.prio_stack })
        else
          match get_stack_prio s with
          | none => none
          | some sp =>
            if sp = (s.procs c).prio then some (Prep.pick { s with prio_stack := c :: s.prio_stack })
            else some (Prep.pick { s with readyqueue := c :: s.readyqueue })
    else some (Prep.pick s)

/-- The pick_next tail of prio_schedule (src/pa2.c lines 500-538): drain
prio_stack into the readyqueue (head insertion) if the readyqueue is
empty, select the highest-priority entry, and if the remaining stack head
prio differs from the pick, flush the stack back, reinsert the pick and
re-select. -/
def prio_pick_next (s : State) : Option (Option Nat × State) :=
  if s.readyqueue = [] ∧ s.prio_stack = [] then some (none, s)
  else
    let s1 := if s.readyqueue = [] then
        { s with readyqueue := drainHead s.prio_stack s.readyqueue, prio_stack := [] }
      else s
    match get_highest_prio s1 with
    | none => none
    | some next =>
      let s2 := { s1 with readyqueue := s1.readyqueue.erase next }
      if s2.prio_stack = [] then some (some next, s2)
      else
        match get_stack_prio s2 with
        | none => none
        | some sp =>
          if sp ≠ (s2.procs next).prio then
            let s3 := { s2 with readyqueue := drainHead s2.prio_stack s2.readyqueue, prio_stack := [] }
            let s4 := { s3 with readyqueue := next :: s3.readyqueue }
            match get_highest_prio s4 with
            | none => none
            | some next2 => some (some next2, { s4 with readyqueue := s4.readyqueue.erase next2 })
          else some (some next, s2)

/-- prio_schedule (src/pa2.c lines 458-539). -/
def prio_schedule (s : State) : Option (Option Nat × State) :=
  match prio_prepare s with
  | none => none
  | some (Prep.ret c s1) => some (some c, s1)
  | some (Prep.pick s1) => prio_pick_next s1

/-- prio_reset (src/pa2.c lines 567-569): restore the effective prio of a
process to its original prio. -/
def prio_reset (procs : Nat → Process) (c : Nat) : Nat → Process :=
  Function.update procs c { procs c with prio := (procs c).prio_orig }

/-- The per-process step of prio_boost: prio++ followed by
if (prio == MAX_PRIO) prio = MAX_PRIO (src/pa2.c lines 574-576 and
581-583), transcribed exactly as written. -/
def boostOne (maxPrio : Nat) (p : Process) : Process :=
  let p1 : Process := { p with prio := p.prio + 1 }
  if p1.prio = maxPrio then { p1 with prio := maxPrio } else p1

/-- Applying boostOne to every id of a list, left to right. -/
def boostList (maxPrio : Nat) (procs : Nat → Process) (l : List Nat) : Nat → Process :=
  l.foldl (fun pr pid => Function.update pr pid (boostOne maxPrio (pr pid))) procs

/-- prio_boost (src/pa2.c lines 571-585): boost every process in the
readyqueue, then every process in pa_stack. -/
def prio_boost (maxPrio : Nat) (s : State) : State :=
  { s with procs := boostList maxPrio (boostList maxPrio s.procs s.readyqueue) s.pa_stack }

/-- get_pastack_prio (src/pa2.c lines 587-589): prio of the head of
pa_stack; none models the garbage read on an empty stack. -/
def get_pastack_prio (s : State) : Option Nat :=
  s.pa_stack.head?.map (fun p => (s.procs p).prio)

/-- The aging prologue of pa_schedule (src/pa2.c lines 593-604): when
current is non-NULL, reset its prio to the original and boost everything
in the readyqueue and pa_stack. -/
def pa_aged (maxPrio : Nat) (s : State) : State :=
  match s.current with
  | some c => prio_boost maxPrio { s with procs := prio_reset s.procs c }
  | none => s

/-- The code of pa_schedule between the prologue and the pick_next label
(src/pa2.c lines 606-638): same shape as prio_prepare over pa_stack, but
the readyqueue insertion uses list_add_tail (line 634). -/
def pa_prepare_core (s : State) : Option Prep :=
  match s.current with
  | none => some (Prep.pick s)
  | some c =>
    if (s.procs c).status = Status.BLOCKED then some (Prep.pick s)
    else if (s.procs c).age < (s.procs c).lifespan then
      match get_highest_prio s with
      | none => none
      | some h =>
        if (s.procs h).prio = (s.procs c).prio then
          if s.readyqueue = [] ∧ s.pa_stack = [] then some (Prep.ret c s)
          else some (Prep.pick { s with pa_stack := c :: s.pa_stack })
        else
          match get_pastack_prio s with
          | none => none
          | some sp =>
            if sp = (s.procs c).prio then some (Prep.pick { s with pa_stack := c :: s.pa_stack })
            else some (Prep.pick { s with readyqueue := s.readyqueue ++ [c] })
    else some (Prep.pick s)

/-- The pre-pick_next part of pa_schedule: prologue then core. -/
def pa_prepare (maxPrio : Nat) (s : State) : Option Prep :=
  pa_prepare_core (pa_aged maxPrio s)

/-- The pick_next tail of pa_schedule (src/pa2.c lines 641-679): like
prio_pick_next, but both drains use list_add_tail (order preserved). -/
def pa_pick_next (s : State) : Option (Option Nat × State) :=
  if s.readyqueue = [] ∧ s.pa_stack = [] then some (none, s)
  else
    let s1 := if s.readyqueue = [] then
        { s with readyqueue := drainTail s.pa_stack s.readyqueue, pa_stack := [] }
      else s
    match get_highest_prio s1 with
    | none => none
    | some next =>
      let s2 := { s1 with readyqueue := s1.readyqueue.erase next }
      if s2.pa_stack = [] then some (some next, s2)
      else
        match get_pastack_prio s2 with
        | none => none
        | some sp =>
          if sp ≠ (s2.procs next).prio then
            let s3 := { s2 with readyqueue := drainTail s2.pa_stack s2.readyqueue, pa_stack := [] }
            let s4 := { s3 with readyqueue := next :: s3.readyqueue }
            match get_highest_prio s4 with
            | none => none
            | some next2 => some (some next2, { s4 with readyqueue := s4.readyqueue.erase next2 })
          else some (some next, s2)

/-- pa_schedule (src/pa2.c lines 591-682). -/
def pa_schedule (maxPrio : Nat) (s : State) : Option (Option Nat × State) :=
  match pa_prepare maxPrio s with
  | none => none
  | some (Prep.ret c s1) => some (some c, s1)
  | some (Prep.pick s1) => pa_pick_next s1

/-- pcp_acquire (src/pa2.c lines 697-716): on success the new owner gets
prio = MAX_PRIO; on contention, block and append to the waitqueue tail. -/
def pcp_acquire (maxPrio : Nat) (s : State) (resource_id : Int) : Option (Bool × State) :=
  match s.current with
  | none => none
  | some c =>
    match (s.resources resource_id).owner with
    | none =>
      some (true, { s with
        resources := Function.update s.resources resource_id
          { s.resources resource_id with owner := some c },
        procs := Function.update s.procs c { s.procs c with prio := maxPrio } })
    | some _ =>
      some (false, { s with
        procs := Function.update s.procs c { s.procs c with status := Status.BLOCKED },
        resources := Function.update s.resources resource_id
          { s.resources resource_id with waitqueue := (s.resources resource_id).waitqueue ++ [c] } })

/-- pcp_release (src/pa2.c lines 719-737): assert the caller owns the
resource, restore the owner prio to prio_orig (written through the owner
pointer, which the assert makes equal to current) before clearing
ownership, then wake the highest-priority waiter. -/
def pcp_release (s : State) (resource_id : Int) : Option State :=
  match s.current with
  | none => none
  | some c =>
    if (s.resources resource_id).owner = some c then
      wake_one { s with
        procs := Function.update s.procs c { s.procs c with prio := (s.procs c).prio_orig },
        resources := Function.update s.resources resource_id
          { s.resources resource_id with owner := none } } resource_id
    else none

/-- get_pcpstack_prio (src/pa2.c lines 754-756). -/
def get_pcpstack_prio (s : State) : Option Nat :=
  s.pcp_stack.head?.map (fun p => (s.procs p).prio)

/-- The code of pcp_schedule before the pick_next label (src/pa2.c lines
760-793): same shape as pa_prepare_core over pcp_stack (tail insertion
into the readyqueue, line 789). -/
def pcp_prepare (s : State) : Option Prep :=
  match s.current with
  | none => some (Prep.pick s)
  | some c =>
    if (s.procs c).status = Status.BLOCKED then some (Prep.pick s)
    else if (s.procs c).age < (s.procs c).lifespan then
      match get_highest_prio s with
      | none => none
      | some h =>
        if (s.procs h).prio = (s.procs c).prio then
          if s.readyqueue = [] ∧ s.pcp_stack = [] then some (Prep.ret c s)
          else some (Prep.pick { s with pcp_stack := c :: s.pcp_stack })
        else
          match get_pcpstack_prio s with
          | none => none
          | some sp =>
            if sp = (s.procs c).prio then some (Prep.pick { s with pcp_stack := c :: s.pcp_stack })
            else some (Prep.pick { s with readyqueue := s.readyqueue ++ [c] })
    else some (Prep.pick s)

/-- The pick_next tail of pcp_schedule (src/pa2.c lines 796-835): drains
use list_add (head insertion). -/
def pcp_pick_next (s : State) : Option (Option Nat × State) :=
  if s.readyqueue = [] ∧ s.pcp_stack = [] then some (none, s)
  else
    let s1 := if s.readyqueue = [] then
        { s with readyqueue := drainHead s.pcp_stack s.readyqueue, pcp_stack := [] }
      else s
    match get_highest_prio s1 with
    | none => none
    | some next =>
      let s2 := { s1 with readyqueue := s1.readyqueue.erase next }
      if s2.pcp_stack = [] then some (some next, s2)
      else
        match get_pcpstack_prio s2 with
        | none => none
        | some sp =>
          if sp ≠ (s2.procs next).prio then
            let s3 := { s2 with readyqueue := drainHead s2.pcp_stack s2.readyqueue, pcp_stack := [] }
            let s4 := { s3 with readyqueue := next :: s3.readyqueue }
            match get_highest_prio s4 with
            | none => none
            | some next2 => some (some next2, { s4 with readyqueue := s4.readyqueue.erase next2 })
          else some (some next, s2)

/-- pcp_schedule (src/pa2.c lines 760-836). -/
def pcp_schedule (s : State) : Option (Option Nat × State) :=
  match pcp_prepare s with
  | none => none
  | some (Prep.ret c s1) => some (some c, s1)
  | some (Prep.pick s1) => pcp_pick_next s1

/-- pip_acquire (src/pa2.c lines 856-870): on success, no prio change.  On
contention the caller is blocked and appended to the waitqueue tail, and
then, if the caller prio equals the highest prio among the waiters (the
caller included), the owner prio is ASSIGNED the caller prio — there is
no comparison with the current owner prio. -/
def pip_acquire (s : State) (resource_id : Int) : Option (Bool × State) :=
  match s.current with
  | none => none
  | some c =>
    match (s.resources resource_id).owner with
    | none =>
      some (true, { s with
        resources := Function.update s.resources resource_id
          ({ s.resources resource_id with owner := some c }) })
    | some o =>
      let s2 : State := { s with
        procs := Function.update s.procs c { s.procs c with status := Status.BLOCKED },
        resources := Function.update s.resources resource_id
          { s.resources resource_id with waitqueue := (s.resources resource_id).waitqueue ++ [c] } }
      match get_highest_prio_wait s2.procs (s2.resources resource_id) with
      | none => none
      | some h =>
        if (s2.procs c).prio = (s2.procs h).prio then
          some (false, { s2 with
            procs := Function.update s2.procs o { s2.procs o with prio := (s2.procs c).prio } })
        else some (false, s2)

/-- pip_release (src/pa2.c lines 873-890): textually the same body as
pcp_release. -/
def pip_release (s : State) (resource_id : Int) : Option State :=
  match s.current with
  | none => none
  | some c =>
    if (s.resources resource_id).owner = some c then
      wake_one { s with
        procs := Function.update s.procs c { s.procs c with prio := (s.procs c).prio_orig },
        resources := Function.update s.resources resource_id
          { s.resources resource_id with owner := none } } resource_id
    else none

/-- get_pipstack_prio (src/pa2.c lines 899-901). -/
def get_pipstack_prio (s : State) : Option Nat :=
  s.pip_stack.head?.map (fun p => (s.procs p).prio)

/-- The code of pip_schedule before the pick_next label (src/pa2.c lines
903-934): same shape as pcp_prepare over pip_stack (tail insertion into
the readyqueue, line 930). -/
def pip_prepare (s : State) : Option Prep :=
  match s.current with
  | none => some (Prep.pick s)
  | some c =>
    if (s.procs c).status = Status.BLOCKED then some (Prep.pick s)
    else if (s.procs c).age < (s.procs c).lifespan then
      match get_highest_prio s with
      | none => none
      | some h =>
        if (s.procs h).prio = (s.procs c).prio then
          if s.readyqueue = [] ∧ s.pip_stack = [] then some (Prep.ret c s)
          else some (Prep.pick { s with pip_stack := c :: s.pip_stack })
        else
          match get_pipstack_prio s with
          | none => none
          | some sp =>
            if sp = (s.procs c).prio then some (Prep.pick { s with pip_stack := c :: s.pip_stack })
            else some (Prep.pick { s with readyqueue := s.readyqueue ++ [c] })
    else some (Prep.pick s)

/-- The pick_next tail of pip_schedule (src/pa2.c lines 937-975).  The
final-correction branch (lines 958-972) tests get_pipstack_prio against
the tentative pick, but its drain loop iterates over PCP_STACK (line
963): pcp_stack is emptied into the readyqueue while pip_stack is left
untouched.  The transcription preserves this cross-reference exactly as
the source has it. -/
def pip_pick_next (s : State) : Option (Option Nat × State) :=
  if s.readyqueue = [] ∧ s.pip_stack = [] then some (none, s)
  else
    let s1 := if s.readyqueue = [] then
        { s with readyqueue := drainHead s.pip_stack s.readyqueue, pip_stack := [] }
      else s
    match get_highest_prio s1 with
    | none => none
    | some next =>
      let s2 := { s1 with readyqueue := s1.readyqueue.erase next }
      if s2.pip_stack = [] then some (some next, s2)
      else
        match get_pipstack_prio s2 with
        | none => none
        | some sp =>
          if sp ≠ (s2.procs next).prio then
            let s3 := { s2 with readyqueue := drainHead s2.pcp_stack s2.readyqueue, pcp_stack := [] }
            let s4 := { s3 with readyqueue := next :: s3.readyqueue }
            match get_highest_prio s4 with
            | none => none
            | some next2 => some (some next2, { s4 with readyqueue := s4.readyqueue.erase next2 })
          else some (some next, s2)

/-- pip_schedule (src/pa2.c lines 903-976). -/
def pip_schedule (s : State) : Option (Option Nat × State) :=
  match pip_prepare s with
  | none => none
  | some (Prep.ret c s1) => some (some c, s1)
  | some (Prep.pick s1) => pip_pick_next s1

/-- A filler process record for table slots the scenarios below do not use. -/
def defaultProc : Process :=
  { status := Status.READY, age := 0, lifespan := 0, prio := 0, prio_orig := 0 }

/-- A free resource with an empty waitqueue. -/
def defaultRes : Resource :=
  { owner := none, waitqueue := [] }

/-- An empty baseline state used to build the concrete scenarios below. -/
def baseState : State :=
  { procs := fun _ => defaultProc, current := none, readyqueue := [],
    resources := fun _ => defaultRes,
    prio_stack := [], pa_stack := [], pcp_stack := [], pip_stack := [] }

/-- Scenario for pip_acquire lowering the owner priority: process 0 owns
resource 0 with effective prio 7 (for instance inherited from a waiter on
another resource), the running process 1 has prio 3, and the waitqueue of
resource 0 is empty. -/
def stateC1 : State :=
  { baseState with
    procs := fun n =>
      if n = 0 then { status := Status.READY, age := 0, lifespan := 10, prio := 7, prio_orig := 1 }
      else if n = 1 then { status := Status.RUNNING, age := 0, lifespan := 10, prio := 3, prio_orig := 3 }
      else defaultProc,
    current := some 1,
    resources := fun rid => if rid = 0 then { owner := some 0, waitqueue := [] } else defaultRes }

/-- The PIP scenario of the spec: owner 0 with prio 1 holds resource 0 and
the running waiter 1 has prio 5. -/
def stateC1w : State :=
  { baseState with
    procs := fun n =>
      if n = 0 then { status := Status.READY, age := 0, lifespan := 10, prio := 1, prio_orig := 1 }
      else if n = 1 then { status := Status.RUNNING, age := 0, lifespan := 10, prio := 5, prio_orig := 5 }
      else defaultProc,
    current := some 1,
    resources := fun rid => if rid = 0 then { owner := some 0, waitqueue := [] } else defaultRes }

/-- A readyqueue holding one process whose effective prio already equals
MAX_PRIO when the per-tick boost runs. -/
def stateC2 (maxPrio : Nat) : State :=
  { baseState with
    procs := fun n =>
      if n = 0 then { status := Status.READY, age := 0, lifespan := 5, prio := maxPrio, prio_orig := 1 }
      else defaultProc,
    readyqueue := [0] }

/-- A pip_schedule call that reaches the final-correction branch: no
current process, readyqueue = [1] (prio 2), pip_stack = [2] (prio 9, so
the stack head prio differs from the tentative pick), and pcp_stack = [3]
(prio 5): the branch drains pcp_stack instead of pip_stack. -/
def stateC3 : State :=
  { baseState with
    procs := fun n =>
      if n = 1 then { status := Status.READY, age := 0, lifespan := 5, prio := 2, prio_orig := 2 }
      else if n = 2 then { status := Status.READY, age := 0, lifespan := 5, prio := 9, prio_orig := 9 }
      else if n = 3 then { status := Status.READY, age := 0, lifespan := 5, prio := 5, prio_orig := 5 }
      else defaultProc,
    readyqueue := [1], pip_stack := [2], pcp_stack := [3] }

/-- pcp_acquire scenario: running process 0 (prio 2) acquires the free
resource 0. -/
def stateC4a : State :=
  { baseState with
    procs := fun n =>
      if n = 0 then { status := Status.RUNNING, age := 0, lifespan := 10, prio := 2, prio_orig := 2 }
      else defaultProc,
    current := some 0 }

/-- pcp_release scenario: running process 0 (boosted prio 42, original 2)
owns resource 0 on which processes 1 (prio 4) and 2 (prio 9) block. -/
def stateC4b : State :=
  { baseState with
    procs := fun n =>
      if n = 0 then { status := Status.RUNNING, age := 0, lifespan := 10, prio := 42, prio_orig := 2 }
      else if n = 1 then { status := Status.BLOCKED, age := 0, lifespan := 10, prio := 4, prio_orig := 4 }
      else if n = 2 then { status := Status.BLOCKED, age := 0, lifespan := 10, prio := 9, prio_orig := 9 }
      else defaultProc,
    current := some 0,
    resources := fun rid => if rid = 0 then { owner := some 0, waitqueue := [1, 2] } else defaultRes }

/-- prio_release scenario: running process 0 owns resource 0 on which
processes 1 (prio 4) and 2 (prio 9) block in that arrival order. -/
def stateC5 : State :=
  { baseState with
    procs := fun n =>
      if n = 0 then { status := Status.RUNNING, age := 0, lifespan := 10, prio := 5, prio_orig := 5 }
      else if n = 1 then { status := Status.BLOCKED, age := 0, lifespan := 10, prio := 4, prio_orig := 4 }
      else if n = 2 then { status := Status.BLOCKED, age := 0, lifespan := 10, prio := 9, prio_orig := 9 }
      else defaultProc,
    current := some 0,
    resources := fun rid => if rid = 0 then { owner := some 0, waitqueue := [1, 2] } else defaultRes }

/-- FCFS scenario: running process 0; resource 0 is free, resource 1 is
owned by process 2, resource 2 is owned by process 0 with process 3
waiting. -/
def stateC6 : State :=
  { baseState with
    procs := fun n =>
      if n = 0 then { status := Status.RUNNING, age := 0, lifespan := 10, prio := 0, prio_orig := 0 }
      else if n = 2 then { status := Status.READY, age := 0, lifespan := 10, prio := 0, prio_orig := 0 }
      else if n = 3 then { status := Status.BLOCKED, age := 0, lifespan := 10, prio := 0, prio_orig := 0 }
      else defaultProc,
    current := some 0,
    resources := fun rid =>
      if rid = 1 then { owner := some 2, waitqueue := [] }
      else if rid = 2 then { owner := some 0, waitqueue := [3] }
      else if rid = 3 then { owner := some 0, waitqueue := [] }
      else defaultRes }

/-- The STCF scenario of the spec: current process 0 has lifespan 10 and
age 8 (remaining 2); the readyqueue holds process 1 with lifespan 3 and
age 0 (remaining 3). -/
def stateC7 : State :=
  { baseState with
    procs := fun n =>
      if n = 0 then { status := Status.RUNNING, age := 8, lifespan := 10, prio := 0, prio_orig := 0 }
      else if n = 1 then { status := Status.READY, age := 0, lifespan := 3, prio := 0, prio_orig := 0 }
      else defaultProc,
    current := some 0,
    readyqueue := [1] }

/-- Priority-family prepare scenario: running process 0 (prio 3), a
strictly higher prio 9 process 1 in the readyqueue, and process 3
(prio 7) at the head of each policy stack. -/
def stateC8 : State :=
  { baseState with
    procs := fun n =>
      if n = 0 then { status := Status.RUNNING, age := 0, lifespan := 5, prio := 3, prio_orig := 3 }
      else if n = 1 then { status := Status.READY, age := 0, lifespan := 5, prio := 9, prio_orig := 9 }
      else if n = 3 then { status := Status.READY, age := 0, lifespan := 5, prio := 7, prio_orig := 7 }
      else defaultProc,
    current := some 0,
    readyqueue := [1],
    prio_stack := [3], pa_stack := [3], pcp_stack := [3], pip_stack := [3] }

/-- A state for the out-of-range access scenario: running process 0 and a
fully free resource table. -/
def stateC9 : State :=
  { baseState with
    procs := fun n =>
      if n = 0 then { status := Status.RUNNING, age := 0, lifespan := 10, prio := 0, prio_orig := 0 }
      else defaultProc,
    current := some 0 }

/-- Companion state in which every slot of the (unbounded) table is owned
by the running process 0, so that a release through an out-of-range index
also proceeds. -/
def stateC9b : State :=
  { baseState with
    procs := fun n =>
      if n = 0 then { status := Status.RUNNING, age := 0, lifespan := 10, prio := 0, prio_orig := 0 }
      else defaultProc,
    current := some 0,
    resources := fun _ => { owner := some 0, waitqueue := [] } }

/-- Priority-family prepare scenario with an empty auxiliary stack:
running process 0 (prio 3) and a strictly higher prio 9 process 1 in the
readyqueue; every policy stack is empty, so the unguarded stack-head read
is reached. -/
def stateC10 : State :=
  { baseState with
    procs := fun n =>
      if n = 0 then { status := Status.RUNNING, age := 0, lifespan := 5, prio := 3, prio_orig := 3 }
      else if n = 1 then { status := Status.READY, age := 0, lifespan := 5, prio := 9, prio_orig := 9 }
      else defaultProc,
    current := some 0,
    readyqueue := [1] }

/-- Full characterization of the strictly-improving left scan: the result
dominates the accumulator and every scanned element, and is either the
accumulator itself or the first scanned element strictly above the
accumulator and everything scanned before it. -/
theorem scanMaxFrom_spec {α : Type} [LinearOrder α] (key : Nat → α) (l : List Nat) (b : Nat) :
    key b ≤ key (scanMaxFrom key b l) ∧
    (∀ p ∈ l, key p ≤ key (scanMaxFrom key b l)) ∧
    (scanMaxFrom key b l = b ∨
      ∃ l1 l2, l = l1 ++ scanMaxFrom key b l :: l2 ∧
        key b < key (scanMaxFrom key b l) ∧
        ∀ p ∈ l1, key p < key (scanMaxFrom key b l)) := by
  induction l generalizing b with
  | nil => exact ⟨le_rfl, by simp, Or.inl rfl⟩
  | cons p t ih =>
    have hfold : scanMaxFrom key b (p :: t) = scanMaxFrom key (if key b < key p then p else b) t := rfl
    by_cases hbp : key b < key p
    · rw [hfold, if_pos hbp]
      obtain ⟨h1, h2, h3⟩ := ih p
      refine ⟨le_of_lt (lt_of_lt_of_le hbp h1), ?_, ?_⟩
      · intro q hq
        rcases List.mem_cons.mp hq with rfl | hq
        · exact h1
        · exact h2 q hq
      · rcases h3 with h3 | ⟨t1, t2, hdec, hlt, hall⟩
        · refine Or.inr ⟨[], t, ?_, ?_, by simp⟩
          · rw [h3, List.nil_append]
          · rw [h3]; exact hbp
        · refine Or.inr ⟨p :: t1, t2, by rw [List.cons_append, ← hdec], lt_trans hbp hlt, ?_⟩
          intro q hq
          rcases List.mem_cons.mp hq with rfl | hq
          · exact hlt
          · exact hall q hq
    · rw [hfold, if_neg hbp]
      obtain ⟨h1, h2, h3⟩ := ih b
      refine ⟨h1, ?_, ?_⟩
      · intro q hq
        rcases List.mem_cons.mp hq with rfl | hq
        · exact le_trans (not_lt.mp hbp) h1
        · exact h2 q hq
      · rcases h3 with h3 | ⟨t1, t2, hdec, hlt, hall⟩
        · exact Or.inl h3
        · refine Or.inr ⟨p :: t1, t2, by rw [List.cons_append, ← hdec], hlt, ?_⟩
          intro q hq
          rcases List.mem_cons.mp hq with rfl | hq
          · exact lt_of_le_of_lt (not_lt.mp hbp) hlt
          · exact hall q hq

/-- What scanMax returning some b says about b: membership, dominance over
every element, and first attainment (every earlier element is strictly
below b, so ties go to the earliest element of the scan). -/
theorem scanMax_eq_some_spec {α : Type} [LinearOrder α] {key : Nat → α} {l : List Nat} {b : Nat}
    (h : scanMax key l = some b) :
    b ∈ l ∧ (∀ p ∈ l, key p ≤ key b) ∧
      ∃ l1 l2, l = l1 ++ b :: l2 ∧ ∀ p ∈ l1, key p < key b := by
  cases l with
  | nil => simp [scanMax] at h
  | cons h0 t =>
    have hb : scanMaxFrom key h0 (h0 :: t) = b := by
      simpa [scanMax] using h
    obtain ⟨h1, h2, h3⟩ := scanMaxFrom_spec key (h0 :: t) h0
    rw [hb] at h1 h2 h3
    refine ⟨?_, h2, ?_⟩
    · rcases h3 with h3 | ⟨l1, l2, hdec, hlt, hall⟩
      · rw [h3]; exact List.mem_cons_self _ _
      · rw [hdec]; exact List.mem_append_right _ (List.mem_cons_self _ _)
    · rcases h3 with h3 | ⟨l1, l2, hdec, hlt, hall⟩
      · exact ⟨[], t, by rw [h3, List.nil_append], by simp⟩
      · exact ⟨l1, l2, hdec, hall⟩

/-- scanMax yields a value on every non-empty list. -/
theorem scanMax_isSome {α : Type} [LinearOrder α] (key : Nat → α) (l : List Nat) (hne : l ≠ []) :
    ∃ b, scanMax key l = some b := by
  cases l with
  | nil => exact absurd rfl hne
  | cons h0 t => exact ⟨scanMaxFrom key h0 (h0 :: t), rfl⟩

/-- Two scans agree when the keys agree on the accumulator and on every
element of the list. -/
theorem scanMaxFrom_congr {α : Type} [LinearOrder α] {key kez : Nat → α} {l : List Nat} {b : Nat}
    (hb : key b = kez b) (hl : ∀ p ∈ l, key p = kez p) :
    scanMaxFrom key b l = scanMaxFrom kez b l := by
  induction l generalizing b with
  | nil => rfl
  | cons p t ih =>
    have hp : key p = kez p := hl p (List.mem_cons_self _ _)
    have ht : ∀ q ∈ t, key q = kez q := fun q hq => hl q (List.mem_cons_of_mem _ hq)
    have e1 : scanMaxFrom key b (p :: t) = scanMaxFrom key (if key b < key p then p else b) t := rfl
    have e2 : scanMaxFrom kez b (p :: t) = scanMaxFrom kez (if kez b < kez p then p else b) t := rfl
    rw [e1, e2, ← hb, ← hp]
    by_cases hc : key b < key p
    · rw [if_pos hc]
      exact ih hp ht
    · rw [if_neg hc]
      exact ih hb ht

/-- scanMax congruence under pointwise key agreement on the list. -/
theorem scanMax_congr {α : Type} [LinearOrder α] {key kez : Nat → α} {l : List Nat}
    (hl : ∀ p ∈ l, key p = kez p) :
    scanMax key l = scanMax kez l := by
  cases l with
  | nil => rfl
  | cons h0 t =>
    have : scanMaxFrom key h0 (h0 :: t) = scanMaxFrom kez h0 (h0 :: t) :=
      scanMaxFrom_congr (hl h0 (List.mem_cons_self _ _)) hl
    simp [scanMax, this]

/-- Minimizing mirror of scanMaxFrom_spec. -/
theorem scanMinFrom_spec {α : Type} [LinearOrder α] (key : Nat → α) (l : List Nat) (b : Nat) :
    key (scanMinFrom key b l) ≤ key b ∧
    (∀ p ∈ l, key (scanMinFrom key b l) ≤ key p) ∧
    (scanMinFrom key b l = b ∨
      ∃ l1 l2, l = l1 ++ scanMinFrom key b l :: l2 ∧
        key (scanMinFrom key b l) < key b ∧
        ∀ p ∈ l1, key (scanMinFrom key b l) < key p) := by
  induction l generalizing b with
  | nil => exact ⟨le_rfl, by simp, Or.inl rfl⟩
  | cons p t ih =>
    have hfold : scanMinFrom key b (p :: t) = scanMinFrom key (if key p < key b then p else b) t := rfl
    by_cases hbp : key p < key b
    · rw [hfold, if_pos hbp]
      obtain ⟨h1, h2, h3⟩ := ih p
      refine ⟨le_of_lt (lt_of_le_of_lt h1 hbp), ?_, ?_⟩
      · intro q hq
        rcases List.mem_cons.mp hq with rfl | hq
        · exact h1
        · exact h2 q hq
      · rcases h3 with h3 | ⟨t1, t2, hdec, hlt, hall⟩
        · refine Or.inr ⟨[], t, ?_, ?_, by simp⟩
          · rw [h3, List.nil_append]
          · rw [h3]; exact hbp
        · refine Or.inr ⟨p :: t1, t2, by rw [List.cons_append, ← hdec], lt_trans hlt hbp, ?_⟩
          intro q hq
          rcases List.mem_cons.mp hq with rfl | hq
          · exact hlt
          · exact hall q hq
    · rw [hfold, if_neg hbp]
      obtain ⟨h1, h2, h3⟩ := ih b
      refine ⟨h1, ?_, ?_⟩
      · intro q hq
        rcases List.mem_cons.mp hq with rfl | hq
        · exact le_trans h1 (not_lt.mp hbp)
        · exact h2 q hq
      · rcases h3 with h3 | ⟨t1, t2, hdec, hlt, hall⟩
        · exact Or.inl h3
        · refine Or.inr ⟨p :: t1, t2, by rw [List.cons_append, ← hdec], hlt, ?_⟩
          intro q hq
          rcases List.mem_cons.mp hq with rfl | hq
          · exact lt_of_lt_of_le hlt (not_lt.mp hbp)
          · exact hall q hq

/-- What scanMin returning some b says about b: membership, dominance and
first attainment. -/
theorem scanMin_eq_some_spec {α : Type} [LinearOrder α] {key : Nat → α} {l : List Nat} {b : Nat}
    (h : scanMin key l = some b) :
    b ∈ l ∧ (∀ p ∈ l, key b ≤ key p) ∧
      ∃ l1 l2, l = l1 ++ b :: l2 ∧ ∀ p ∈ l1, key b < key p := by
  cases l with
  | nil => simp [scanMin] at h
  | cons h0 t =>
    have hb : scanMinFrom key h0 (h0 :: t) = b := by
      simpa [scanMin] using h
    obtain ⟨h1, h2, h3⟩ := scanMinFrom_spec key (h0 :: t) h0
    rw [hb] at h1 h2 h3
    refine ⟨?_, h2, ?_⟩
    · rcases h3 with h3 | ⟨l1, l2, hdec, hlt, hall⟩
      · rw [h3]; exact List.mem_cons_self _ _
      · rw [hdec]; exact List.mem_append_right _ (List.mem_cons_self _ _)
    · rcases h3 with h3 | ⟨l1, l2, hdec, hlt, hall⟩
      · exact ⟨[], t, by rw [h3, List.nil_append], by simp⟩
      · exact ⟨l1, l2, hdec, hall⟩

/-- The scan stays on the accumulator when nothing in the list strictly
improves on it. -/
theorem scanMinFrom_eq_self {α : Type} [LinearOrder α] {key : Nat → α} {b : Nat} {l : List Nat}
    (h : ∀ p ∈ l, ¬ key p < key b) : scanMinFrom key b l = b := by
  obtain ⟨h1, h2, h3⟩ := scanMinFrom_spec key l b
  rcases h3 with h3 | ⟨l1, l2, hdec, hlt, hall⟩
  · exact h3
  · exfalso
    have hmem : scanMinFrom key b l ∈ l := by
      have hin : scanMinFrom key b l ∈ l1 ++ scanMinFrom key b l :: l2 :=
        List.mem_append_right _ (List.mem_cons_self _ _)
      rwa [← hdec] at hin
    exact h _ hmem hlt

/-- Effect of the shared wake-up block when the highest-priority waiter is
w and every waiter is BLOCKED: w becomes READY, moves from the waitqueue
to the readyqueue tail, and nothing else changes. -/
theorem wake_one_spec (s : State) (rid : Int) (w : Nat)
    (hw : get_highest_prio_wait s.procs (s.resources rid) = some w)
    (hblocked : ∀ p ∈ (s.resources rid).waitqueue, (s.procs p).status = Status.BLOCKED) :
    wake_one s rid = some { s with
      procs := Function.update s.procs w { s.procs w with status := Status.READY },
      readyqueue := s.readyqueue ++ [w],
      resources := Function.update s.resources rid
        ({ s.resources rid with waitqueue := (s.resources rid).waitqueue.erase w }) } := by
  have hmem : w ∈ (s.resources rid).waitqueue := (scanMax_eq_some_spec hw).1
  have hst : (s.procs w).status = Status.BLOCKED := hblocked w hmem
  simp only [wake_one, hw, hst, if_true]

/-- C6: the default FCFS arbitration.  An acquire on an unowned resource
makes the caller the owner and returns true; an acquire on an owned
resource blocks the caller, appends it to the waitqueue tail and returns
false; a release by the owner clears ownership and, when the waitqueue is
non-empty, wakes exactly its head: the head becomes READY and is appended
to the readyqueue tail, and no new owner is assigned. -/
theorem fcfs_acquire_release_spec (s : State) (rid : Int) (c o w : Nat) (rest : List Nat)
    (hc : s.current = some c) :
    ((s.resources rid).owner = none →
      (fcfs_acquire s rid).map (fun r => (r.1, (r.2.resources rid).owner)) = some (true, some c)) ∧
    ((s.resources rid).owner = some o →
      (fcfs_acquire s rid).map
          (fun r => (r.1, (r.2.procs c).status, (r.2.resources rid).waitqueue)) =
        some (false, Status.BLOCKED, (s.resources rid).waitqueue ++ [c])) ∧
    ((s.resources rid).owner = some c → (s.resources rid).waitqueue = w :: rest →
      (s.procs w).status = Status.BLOCKED →
      (fcfs_release s rid).map
          (fun t => ((t.resources rid).owner, (t.procs w).status, t.readyqueue,
            (t.resources rid).waitqueue)) =
        some (none, Status.READY, s.readyqueue ++ [w], rest)) ∧
    ((s.resources rid).owner = some c → (s.resources rid).waitqueue = [] →
      ((fcfs_release s rid).map (fun t => ((t.resources rid).owner, t.readyqueue)) =
        some (none, s.readyqueue)) ∧
      ∀ q, (fcfs_release s rid).map (fun t => (t.procs q).status) =
        some ((s.procs q).status)) := by
  refine ⟨?_, ?_, ?_, ?_⟩
  · intro hfree
    simp [fcfs_acquire, hc, hfree, Function.update_same]
  · intro hown
    simp [fcfs_acquire, hc, hown, Function.update_same]
  · intro hown hwq hst
    simp [fcfs_release, hc, hown, hwq, hst, Function.update_same]
  · intro hown hemp
    constructor
    · simp [fcfs_release, hc, hown, hemp, Function.update_same]
    · intro q
      simp [fcfs_release, hc, hown, hemp, Function.update_same]

/-- Witness: at stateC6, acquiring the free resource 0 succeeds and makes
process 0 the owner; acquiring the owned resource 1 blocks process 0 and
queues it; releasing resource 2 wakes its head waiter 3; releasing
resource 3 (empty waitqueue) just clears ownership. -/
theorem fcfs_acquire_release_spec_witness :
    ((fcfs_acquire stateC6 0).map (fun r => (r.1, (r.2.resources 0).owner)) = some (true, some 0)) ∧
    ((fcfs_acquire stateC6 1).map
        (fun r => (r.1, (r.2.procs 0).status, (r.2.resources 1).waitqueue)) =
      some (false, Status.BLOCKED, [0])) ∧
    ((fcfs_release stateC6 2).map
        (fun t => ((t.resources 2).owner, (t.procs 3).status, t.readyqueue,
          (t.resources 2).waitqueue)) =
      some (none, Status.READY, [3], [])) ∧
    ((fcfs_release stateC6 3).map (fun t => ((t.resources 3).owner, t.readyqueue)) =
      some (none, [])) ∧
    ((fcfs_release stateC6 3).map (fun t => (t.procs 3).status) = some Status.BLOCKED) := by
  refine ⟨?_, ?_, ?_, ?_, ?_⟩
  · exact (fcfs_acquire_release_spec stateC6 0 0 0 0 [] rfl).1 rfl
  · exact (fcfs_acquire_release_spec stateC6 1 0 2 0 [] rfl).2.1 rfl
  · exact (fcfs_acquire_release_spec stateC6 2 0 0 3 [] rfl).2.2.1 rfl rfl rfl
  · exact ((fcfs_acquire_release_spec stateC6 3 0 0 0 [] rfl).2.2.2 rfl rfl).1
  · exact ((fcfs_acquire_release_spec stateC6 3 0 0 0 [] rfl).2.2.2 rfl rfl).2 3

/-- The highest-priority-waiter scan is unchanged by updating the record
of a process that is not in the waitqueue. -/
theorem get_highest_prio_wait_update_not_mem (procs : Nat → Process) (r : Resource) (c : Nat)
    (p1 : Process) (hc : c ∉ r.waitqueue) :
    get_highest_prio_wait (Function.update procs c p1) r = get_highest_prio_wait procs r := by
  unfold get_highest_prio_wait
  apply scanMax_congr
  intro p hp
  have hpc : p ≠ c := fun h => hc (h ▸ hp)
  rw [Function.update_noteq hpc]

/-- C5: every priority-aware release with a non-empty wait collection
wakes exactly one waiter, namely the one with the numerically greatest
effective priority (ties broken by earliest scan position): that waiter
becomes READY, leaves the waitqueue and is appended to the readyqueue
tail, while every other waiter stays BLOCKED and in the waitqueue.  The
same full postcondition (READY, readyqueue append, waitqueue removal,
all others BLOCKED and still queued) holds for prio_release (used by
Priority and Priority+Aging), for pcp_release and for pip_release. -/
theorem priority_release_wakes_highest (s : State) (rid : Int) (c w : Nat)
    (hc : s.current = some c)
    (ho : (s.resources rid).owner = some c)
    (hw : get_highest_prio_wait s.procs (s.resources rid) = some w)
    (hblocked : ∀ p ∈ (s.resources rid).waitqueue, (s.procs p).status = Status.BLOCKED)
    (hcw : c ∉ (s.resources rid).waitqueue)
    (hnodup : (s.resources rid).waitqueue.Nodup) :
    (w ∈ (s.resources rid).waitqueue ∧
      (∀ p ∈ (s.resources rid).waitqueue, (s.procs p).prio ≤ (s.procs w).prio) ∧
      ∃ l1 l2, (s.resources rid).waitqueue = l1 ++ w :: l2 ∧
        ∀ p ∈ l1, (s.procs p).prio < (s.procs w).prio) ∧
    ((prio_release s rid).map (fun t => (t.procs w).status) = some Status.READY) ∧
    ((prio_release s rid).map State.readyqueue = some (s.readyqueue ++ [w])) ∧
    ((prio_release s rid).map (fun t => (t.resources rid).waitqueue) =
      some ((s.resources rid).waitqueue.erase w)) ∧
    (w ∉ (s.resources rid).waitqueue.erase w) ∧
    (∀ p ∈ (s.resources rid).waitqueue, p ≠ w →
      (prio_release s rid).map (fun t => (t.procs p).status) = some Status.BLOCKED ∧
      p ∈ (s.resources rid).waitqueue.erase w) ∧
    ((pcp_release s rid).map (fun t => (t.procs w).status) = some Status.READY) ∧
    ((pcp_release s rid).map State.readyqueue = some (s.readyqueue ++ [w])) ∧
    ((pip_release s rid).map (fun t => (t.procs w).status) = some Status.READY) ∧
    ((pip_release s rid).map State.readyqueue = some (s.readyqueue ++ [w])) ∧
    ((pcp_release s rid).map (fun t => (t.resources rid).waitqueue) =
      some ((s.resources rid).waitqueue.erase w)) ∧
    (∀ p ∈ (s.resources rid).waitqueue, p ≠ w →
      (pcp_release s rid).map (fun t => (t.procs p).status) = some Status.BLOCKED ∧
      p ∈ (s.resources rid).waitqueue.erase w) ∧
    ((pip_release s rid).map (fun t => (t.resources rid).waitqueue) =
      some ((s.resources rid).waitqueue.erase w)) ∧
    (∀ p ∈ (s.resources rid).waitqueue, p ≠ w →
      (pip_release s rid).map (fun t => (t.procs p).status) = some Status.BLOCKED ∧
      p ∈ (s.resources rid).waitqueue.erase w) := by
  obtain ⟨hmem, hub, l1, l2, hdec, hfirst⟩ := scanMax_eq_some_spec hw
  have hwc : w ≠ c := fun h => hcw (h ▸ hmem)
  -- the state prio_release hands to the wake-up block
  have hw1 : get_highest_prio_wait s.procs
      (Function.update s.resources rid ({ s.resources rid with owner := none }) rid) = some w := by
    rw [Function.update_same]
    exact hw
  have hb1 : ∀ p ∈ (Function.update s.resources rid
      ({ s.resources rid with owner := none }) rid).waitqueue,
      (s.procs p).status = Status.BLOCKED := by
    rw [Function.update_same]
    exact hblocked
  have hrel : prio_release s rid = wake_one { s with
      resources := Function.update s.resources rid
        ({ s.resources rid with owner := none }) } rid := by
    simp [prio_release, ho, hc]
  have hwake := wake_one_spec { s with
      resources := Function.update s.resources rid
        ({ s.resources rid with owner := none }) } rid w hw1 hb1
  -- the state pcp_release and pip_release hand to the wake-up block
  have hw2 : get_highest_prio_wait
      (Function.update s.procs c ({ s.procs c with prio := (s.procs c).prio_orig }))
      (Function.update s.resources rid ({ s.resources rid with owner := none }) rid) = some w := by
    rw [Function.update_same]
    rw [get_highest_prio_wait_update_not_mem s.procs ({ s.resources rid with owner := none }) c
      ({ s.procs c with prio := (s.procs c).prio_orig }) hcw]
    exact hw
  have hb2 : ∀ p ∈ (Function.update s.resources rid
      ({ s.resources rid with owner := none }) rid).waitqueue,
      ((Function.update s.procs c ({ s.procs c with prio := (s.procs c).prio_orig })) p).status
        = Status.BLOCKED := by
    rw [Function.update_same]
    intro p hp
    have hpc : p ≠ c := fun h => hcw (h ▸ hp)
    rw [Function.update_noteq hpc]
    exact hblocked p hp
  have hrel2 : pcp_release s rid = wake_one { s with
      procs := Function.update s.procs c ({ s.procs c with prio := (s.procs c).prio_orig }),
      resources := Function.update s.resources rid
        ({ s.resources rid with owner := none }) } rid := by
    simp [pcp_release, ho, hc]
  have hrel3 : pip_release s rid = wake_one { s with
      procs := Function.update s.procs c ({ s.procs c with prio := (s.procs c).prio_orig }),
      resources := Function.update s.resources rid
        ({ s.resources rid with owner := none }) } rid := by
    simp [pip_release, ho, hc]
  have hwake2 := wake_one_spec { s with
      procs := Function.update s.procs c ({ s.procs c with prio := (s.procs c).prio_orig }),
      resources := Function.update s.resources rid
        ({ s.resources rid with owner := none }) } rid w hw2 hb2
  refine ⟨⟨hmem, hub, l1, l2, hdec, hfirst⟩, ?_, ?_, ?_, ?_, ?_, ?_, ?_, ?_, ?_, ?_, ?_, ?_, ?_⟩
  · rw [hrel, hwake]
    simp [Function.update_same]
  · rw [hrel, hwake]
    simp
  · rw [hrel, hwake]
    simp [Function.update_same]
  · exact hnodup.not_mem_erase
  · intro p hp hpw
    refine ⟨?_, (hnodup.mem_erase_iff).2 ⟨hpw, hp⟩⟩
    rw [hrel, hwake]
    simp [Function.update_noteq hpw, hblocked p hp]
  · rw [hrel2, hwake2]
    simp [Function.update_same]
  · rw [hrel2, hwake2]
    simp
  · rw [hrel3, hwake2]
    simp [Function.update_same]
  · rw [hrel3, hwake2]
    simp
  · rw [hrel2, hwake2]
    simp [Function.update_same]
  · intro p hp hpw
    have hpc : p ≠ c := fun h => hcw (h ▸ hp)
    refine ⟨?_, (hnodup.mem_erase_iff).2 ⟨hpw, hp⟩⟩
    rw [hrel2, hwake2]
    simp [Function.update_noteq hpw, Function.update_noteq hpc, hblocked p hp]
  · rw [hrel3, hwake2]
    simp [Function.update_same]
  · intro p hp hpw
    have hpc : p ≠ c := fun h => hcw (h ▸ hp)
    refine ⟨?_, (hnodup.mem_erase_iff).2 ⟨hpw, hp⟩⟩
    rw [hrel3, hwake2]
    simp [Function.update_noteq hpw, Function.update_noteq hpc, hblocked p hp]

/-- Witness: releasing resource 0 of stateC5 (waiters 1 with prio 4 and 2
with prio 9) wakes exactly waiter 2 under all three priority-aware
release functions. -/
theorem priority_release_wakes_highest_witness :
    ((prio_release stateC5 0).map (fun t => (t.procs 2).status) = some Status.READY) ∧
    ((prio_release stateC5 0).map State.readyqueue = some [2]) ∧
    ((prio_release stateC5 0).map (fun t => (t.resources 0).waitqueue) = some [1]) ∧
    ((prio_release stateC5 0).map (fun t => (t.procs 1).status) = some Status.BLOCKED) ∧
    ((pcp_release stateC5 0).map (fun t => (t.procs 2).status) = some Status.READY) ∧
    ((pcp_release stateC5 0).map (fun t => (t.resources 0).waitqueue) = some [1]) ∧
    ((pcp_release stateC5 0).map (fun t => (t.procs 1).status) = some Status.BLOCKED) ∧
    ((pip_release stateC5 0).map (fun t => (t.procs 2).status) = some Status.READY) ∧
    ((pip_release stateC5 0).map (fun t => (t.resources 0).waitqueue) = some [1]) ∧
    ((pip_release stateC5 0).map (fun t => (t.procs 1).status) = some Status.BLOCKED) := by
  have h := priority_release_wakes_highest stateC5 0 0 2 rfl rfl rfl
    (by decide) (by decide) (by decide)
  exact ⟨h.2.1, h.2.2.1, h.2.2.2.1,
    (h.2.2.2.2.2.1 1 (by decide) (by decide)).1,
    h.2.2.2.2.2.2.1,
    h.2.2.2.2.2.2.2.2.2.2.1,
    (h.2.2.2.2.2.2.2.2.2.2.2.1 1 (by decide) (by decide)).1,
    h.2.2.2.2.2.2.2.2.1,
    h.2.2.2.2.2.2.2.2.2.2.2.2.1,
    (h.2.2.2.2.2.2.2.2.2.2.2.2.2 1 (by decide) (by decide)).1⟩

/-- C4: the priority-ceiling protocol.  A successful pcp_acquire on an
unowned resource makes the caller the owner and immediately sets its
effective priority to MAX_PRIO; a pcp_release by the owner restores the
outgoing owner priority to prio_orig (the restore is written through the
owner pointer before ownership is cleared, source lines 722-724), clears
ownership, and then wakes the highest-priority waiter, if any. -/
theorem pcp_acquire_release_spec (maxPrio : Nat) (s : State) (rid : Int) (c w : Nat)
    (hc : s.current = some c) :
    ((s.resources rid).owner = none →
      (pcp_acquire maxPrio s rid).map
          (fun r => (r.1, (r.2.resources rid).owner, (r.2.procs c).prio)) =
        some (true, some c, maxPrio)) ∧
    ((s.resources rid).owner = some c →
      (∀ p ∈ (s.resources rid).waitqueue, (s.procs p).status = Status.BLOCKED) →
      c ∉ (s.resources rid).waitqueue →
      (((s.resources rid).waitqueue = [] →
        (pcp_release s rid).map (fun t => ((t.procs c).prio, (t.resources rid).owner)) =
          some ((s.procs c).prio_orig, none)) ∧
       (get_highest_prio_wait s.procs (s.resources rid) = some w →
        (w ∈ (s.resources rid).waitqueue ∧
          ∀ p ∈ (s.resources rid).waitqueue, (s.procs p).prio ≤ (s.procs w).prio) ∧
        (pcp_release s rid).map
            (fun t => ((t.procs c).prio, (t.resources rid).owner, (t.procs w).status,
              t.readyqueue)) =
          some ((s.procs c).prio_orig, none, Status.READY, s.readyqueue ++ [w])))) := by
  constructor
  · intro hfree
    simp [pcp_acquire, hc, hfree, Function.update_same]
  · intro hown hblocked hcw
    constructor
    · intro hemp
      simp [pcp_release, hc, hown, wake_one, get_highest_prio_wait, hemp, scanMax,
        Function.update_same]
    · intro hw
      obtain ⟨hmem, hub, l1, l2, hdec, hfirst⟩ := scanMax_eq_some_spec hw
      have hwc : w ≠ c := fun h => hcw (h ▸ hmem)
      have hw2 : get_highest_prio_wait
          (Function.update s.procs c ({ s.procs c with prio := (s.procs c).prio_orig }))
          (Function.update s.resources rid ({ s.resources rid with owner := none }) rid)
            = some w := by
        rw [Function.update_same]
        rw [get_highest_prio_wait_update_not_mem s.procs ({ s.resources rid with owner := none }) c
          ({ s.procs c with prio := (s.procs c).prio_orig }) hcw]
        exact hw
      have hb2 : ∀ p ∈ (Function.update s.resources rid
          ({ s.resources rid with owner := none }) rid).waitqueue,
          ((Function.update s.procs c ({ s.procs c with prio := (s.procs c).prio_orig })) p).status
            = Status.BLOCKED := by
        rw [Function.update_same]
        intro p hp
        have hpc : p ≠ c := fun h => hcw (h ▸ hp)
        rw [Function.update_noteq hpc]
        exact hblocked p hp
      have hrel2 : pcp_release s rid = wake_one { s with
          procs := Function.update s.procs c ({ s.procs c with prio := (s.procs c).prio_orig }),
          resources := Function.update s.resources rid
            ({ s.resources rid with owner := none }) } rid := by
        simp [pcp_release, hc, hown]
      have hwake2 := wake_one_spec { s with
          procs := Function.update s.procs c ({ s.procs c with prio := (s.procs c).prio_orig }),
          resources := Function.update s.resources rid
            ({ s.resources rid with owner := none }) } rid w hw2 hb2
      refine ⟨⟨hmem, hub⟩, ?_⟩
      rw [hrel2, hwake2]
      simp [Function.update_same, Function.update_noteq (Ne.symm hwc)]

/-- Witness: process 0 acquires the free resource 0 of stateC4a under PCP
with MAX_PRIO = 77 and gets prio 77; releasing resource 0 of stateC4b
restores the owner prio to its original 2 and wakes the prio 9 waiter 2. -/
theorem pcp_acquire_release_spec_witness :
    ((pcp_acquire 77 stateC4a 0).map
        (fun r => (r.1, (r.2.resources 0).owner, (r.2.procs 0).prio)) =
      some (true, some 0, 77)) ∧
    ((pcp_release stateC4b 0).map
        (fun t => ((t.procs 0).prio, (t.resources 0).owner, (t.procs 2).status, t.readyqueue)) =
      some (2, none, Status.READY, [2])) := by
  refine ⟨?_, ?_⟩
  · exact (pcp_acquire_release_spec 77 stateC4a 0 0 0 rfl).1 rfl
  · exact (((pcp_acquire_release_spec 77 stateC4b 0 0 2 rfl).2 rfl
      (by decide) (by decide)).2 rfl).2

/-- C1 (amended): on a contended pip_acquire the caller is blocked and
appended to the tail of the waitqueue; whenever the caller priority
equals the greatest priority among the waiters (the caller included, so
exactly when no waiter has a strictly greater priority), the owner
effective priority is ASSIGNED the caller priority.  The assignment is
not guarded by a comparison with the current owner priority, so this
path can also lower the owner priority (see the counterexample). -/
theorem pip_acquire_contention_spec (s : State) (rid : Int) (c o : Nat)
    (hc : s.current = some c) (ho : (s.resources rid).owner = some o) :
    ((pip_acquire s rid).map
        (fun r => (r.1, (r.2.procs c).status, (r.2.resources rid).waitqueue)) =
      some (false, Status.BLOCKED, (s.resources rid).waitqueue ++ [c])) ∧
    ((∀ p ∈ (s.resources rid).waitqueue, (s.procs p).prio ≤ (s.procs c).prio) →
      (pip_acquire s rid).map (fun r => (r.2.procs o).prio) = some ((s.procs c).prio)) := by
  have hkey : ∀ p, ((Function.update s.procs c
      ({ s.procs c with status := Status.BLOCKED })) p).prio = (s.procs p).prio := by
    intro p
    by_cases hpc : p = c
    · subst hpc
      rw [Function.update_same]
    · rw [Function.update_noteq hpc]
  have hne : (s.resources rid).waitqueue ++ [c] ≠ [] := by simp
  obtain ⟨hmax, hhmax⟩ := scanMax_isSome
    (fun p => ((Function.update s.procs c ({ s.procs c with status := Status.BLOCKED })) p).prio)
    ((s.resources rid).waitqueue ++ [c]) hne
  have hscrut : get_highest_prio_wait
      (Function.update s.procs c ({ s.procs c with status := Status.BLOCKED }))
      (Function.update s.resources rid
        ({ s.resources rid with waitqueue := (s.resources rid).waitqueue ++ [c] }) rid)
        = some hmax := by
    rw [Function.update_same]
    exact hhmax
  obtain ⟨hmem2, hub2, _⟩ := scanMax_eq_some_spec hhmax
  simp only [ho] at hscrut
  constructor
  · simp only [pip_acquire, hc, ho, hscrut]
    split
    · by_cases hoc : o = c
      · subst hoc
        simp [Function.update_same]
      · simp [Function.update_same, Function.update_noteq (Ne.symm hoc),
          Function.update_noteq hoc]
    · simp [Function.update_same]
  · intro hub
    have heq : ((Function.update s.procs c
        ({ s.procs c with status := Status.BLOCKED })) c).prio
        = ((Function.update s.procs c
          ({ s.procs c with status := Status.BLOCKED })) hmax).prio := by
      have h1 := hub2 c (by simp)
      have h2 : ((Function.update s.procs c
          ({ s.procs c with status := Status.BLOCKED })) hmax).prio
          ≤ ((Function.update s.procs c
            ({ s.procs c with status := Status.BLOCKED })) c).prio := by
        rw [hkey c, hkey hmax]
        rcases List.mem_append.mp hmem2 with hm | hm
        · exact hub hmax hm
        · rcases List.mem_singleton.mp hm with rfl
          exact le_refl _
      exact le_antisymm h1 h2
    simp only [pip_acquire, hc, ho, hscrut, if_pos heq]
    simp [Function.update_same, hkey c]

/-- C1 counterexample: in stateC1 the owner (process 0) has effective
prio 7 while the caller (process 1, the only waiter after blocking) has
prio 3, and pip_acquire assigns the owner prio 3: the contention path
LOWERED the owner effective priority from 7 to 3, refuting the claim
that this path never lowers it. -/
theorem pip_acquire_lowers_owner_prio :
    (stateC1.procs 0).prio = 7 ∧
    ((pip_acquire stateC1 0).map (fun r => (r.2.procs 0).prio) = some 3) ∧
    ¬ ((7:Nat) ≤ 3) := by
  refine ⟨rfl, rfl, by decide⟩

/-- Witness (the PIP scenario of the spec): in stateC1w the owner has
prio 1 and the blocking caller prio 5; after the call the caller is
BLOCKED, queued, and the owner prio is 5. -/
theorem pip_acquire_contention_spec_witness :
    ((pip_acquire stateC1w 0).map
        (fun r => (r.1, (r.2.procs 1).status, (r.2.resources 0).waitqueue)) =
      some (false, Status.BLOCKED, [1])) ∧
    ((pip_acquire stateC1w 0).map (fun r => (r.2.procs 0).prio) = some 5) := by
  have h := pip_acquire_contention_spec stateC1w 0 1 0 rfl rfl
  exact ⟨h.1, h.2 (by decide)⟩

/-- C2 (the clamp is a no-op): at stateC2 the only readyqueue process has
effective prio exactly MAX_PRIO; prio_boost increments it and the clamp
written as if (prio == MAX_PRIO) prio = MAX_PRIO tests only AFTER the
increment (assigning the value to itself when it fires), so the process
leaves the boost with prio = MAX_PRIO + 1 > MAX_PRIO, for every value of
MAX_PRIO: the claimed bound [0, MAX_PRIO] is exceeded.  pa_schedule runs
this boost on every tick with a non-NULL current process. -/
theorem prio_boost_exceeds_max (maxPrio : Nat) :
    ((prio_boost maxPrio (stateC2 maxPrio)).procs 0).prio = maxPrio + 1 := by
  simp [prio_boost, boostList, boostOne, stateC2, baseState, Function.update_same,
    Nat.succ_ne_self]

/-- Witness: with MAX_PRIO = 4, the boosted process reaches prio 5. -/
theorem prio_boost_exceeds_max_witness :
    ((prio_boost 4 (stateC2 4)).procs 0).prio = 5 :=
  prio_boost_exceeds_max 4

/-- C3 (the correction drains the wrong stack): at stateC3 the
final-correction branch of pip_schedule fires (the pip_stack head prio 9
differs from the tentative pick prio 2), but afterwards pip_stack still
holds its process 2 while pcp_stack has been emptied into the readyqueue
(the re-pick then selects the prio 5 process 3 that came from
pcp_stack): the drain loop of pip_schedule iterates over pcp_stack, not
over pip_stack. -/
theorem pip_schedule_drains_pcp_stack :
    (pip_schedule stateC3).map
        (fun r => (r.1, r.2.pip_stack, r.2.pcp_stack, r.2.readyqueue)) =
      some (some 3, [2], [], [1]) := by
  rfl

/-- C9 (amended): fcfs_acquire and fcfs_release perform no range check on
resource_id.  For any index — in particular any out-of-range index
(negative or at least NR_RESOURCES, both covered by the hypothesis) —
the operation proceeds on the table slot at that index exactly as on an
in-range slot and signals no error: the out-of-bounds access is silent
(the hypothesis on the range of rid is deliberately unused). -/
theorem fcfs_no_range_check (nr : Nat) (s : State) (rid : Int) (c : Nat)
    (hc : s.current = some c)
    (hoob : rid < 0 ∨ (nr : Int) ≤ rid) :
    ((s.resources rid).owner = none →
      (fcfs_acquire s rid).map (fun r => (r.1, (r.2.resources rid).owner)) =
        some (true, some c)) ∧
    ((s.resources rid).owner = some c → (s.resources rid).waitqueue = [] →
      (fcfs_release s rid).map (fun t => (t.resources rid).owner) = some none) := by
  constructor
  · intro hfree
    simp [fcfs_acquire, hc, hfree, Function.update_same]
  · intro hown hwq
    simp [fcfs_release, hc, hown, hwq, Function.update_same]

/-- C9 counterexample: taking NR_RESOURCES = 2, index 5 is out of range,
yet fcfs_acquire at stateC9 with resource_id 5 neither fails nor signals
anything: it returns true and silently takes ownership of the
out-of-bounds slot 5. -/
theorem fcfs_acquire_oob_is_silent :
    ((2:Int) ≤ 5) ∧
    ((fcfs_acquire stateC9 5).map (fun r => (r.1, (r.2.resources 5).owner)) =
      some (true, some 0)) := by
  exact ⟨by decide, rfl⟩

/-- Witness: the out-of-range acquire at index 5 (table bound 2) succeeds
and the matching out-of-range release proceeds as well. -/
theorem fcfs_no_range_check_witness :
    ((fcfs_acquire stateC9 5).map (fun r => (r.1, (r.2.resources 5).owner)) =
      some (true, some 0)) ∧
    ((fcfs_release stateC9b 5).map (fun t => (t.resources 5).owner) = some none) := by
  have h1 := fcfs_no_range_check 2 stateC9 5 0 rfl (Or.inr (by decide))
  have h2 := fcfs_no_range_check 2 stateC9b 5 0 rfl (Or.inr (by decide))
  exact ⟨h1.1 rfl, h2.2 rfl rfl⟩

/-- C7: STCF preemption.  With a runnable current process c (not BLOCKED,
age < lifespan, not linked in the readyqueue): if no readyqueue process
has strictly smaller remaining time, the schedule call returns c and the
readyqueue is unchanged (ties keep the running process, which the code
realizes by pushing c onto the readyqueue head and re-picking with the
first-seen-wins scan); if some readyqueue process is strictly shorter,
the call returns the first readyqueue process attaining the minimal
remaining time and c stays pushed back in the readyqueue. -/
theorem stcf_schedule_preempt_iff (s : State) (c : Nat)
    (hc : s.current = some c)
    (hnb : (s.procs c).status ≠ Status.BLOCKED)
    (hage : (s.procs c).age < (s.procs c).lifespan)
    (hnotin : c ∉ s.readyqueue) :
    ((∀ p ∈ s.readyqueue, ¬ remain_time (s.procs p) < remain_time (s.procs c)) →
      (stcf_schedule s).map (fun r => (r.1, r.2.readyqueue)) = some (some c, s.readyqueue)) ∧
    ((∃ p ∈ s.readyqueue, remain_time (s.procs p) < remain_time (s.procs c)) →
      ∀ n, scanMin (fun p => remain_time (s.procs p)) (c :: s.readyqueue) = some n →
        n ∈ s.readyqueue ∧ n ≠ c ∧
        remain_time (s.procs n) < remain_time (s.procs c) ∧
        (∀ p ∈ s.readyqueue, remain_time (s.procs n) ≤ remain_time (s.procs p)) ∧
        (stcf_schedule s).map (fun r => (r.1, r.2.readyqueue)) =
          some (some n, c :: s.readyqueue.erase n)) := by
  have hgs : ¬ (get_shortest s = some c) := by
    intro heq
    have hspec : scanMin (fun p => remain_time (s.procs p)) s.readyqueue = some c := heq
    exact hnotin (scanMin_eq_some_spec hspec).1
  constructor
  · intro hno
    have hself : scanMinFrom (fun p => remain_time (s.procs p)) c (c :: s.readyqueue) = c :=
      scanMinFrom_eq_self (by
        intro p hp
        rcases List.mem_cons.mp hp with rfl | hp
        · exact lt_irrefl _
        · exact hno p hp)
    have hmin : scanMin (fun p => remain_time (s.procs p)) (c :: s.readyqueue) = some c := by
      show some (scanMinFrom (fun p => remain_time (s.procs p)) c (c :: s.readyqueue)) = some c
      rw [hself]
    simp only [stcf_schedule, hc, if_neg hnb, if_pos hage, if_neg hgs, stcf_pick_next]
    simp [get_shortest, scanMin, hself]
  · intro hex n hn
    obtain ⟨p0, hp0, hlt0⟩ := hex
    obtain ⟨hmemn, hubn, _⟩ := scanMin_eq_some_spec hn
    have hnc : n ≠ c := by
      intro rfl2
      subst rfl2
      exact absurd (hubn p0 (List.mem_cons_of_mem _ hp0)) (not_le.mpr hlt0)
    have hmemn2 : n ∈ s.readyqueue := by
      rcases List.mem_cons.mp hmemn with h | h
      · exact absurd h hnc
      · exact h
    have hltc : remain_time (s.procs n) < remain_time (s.procs c) :=
      lt_of_le_of_lt (hubn p0 (List.mem_cons_of_mem _ hp0)) hlt0
    have herase : (c :: s.readyqueue).erase n = c :: s.readyqueue.erase n :=
      List.erase_cons_tail (by simp [Ne.symm hnc])
    refine ⟨hmemn2, hnc, hltc, fun p hp => hubn p (List.mem_cons_of_mem _ hp), ?_⟩
    simp only [stcf_schedule, hc, if_neg hnb, if_pos hage, if_neg hgs, stcf_pick_next]
    simp [get_shortest, hn, herase]

/-- Witness (the STCF scenario of the spec): current process 0 with
remaining time 2 keeps the CPU against the remaining-time 3 process 1. -/
theorem stcf_schedule_preempt_iff_witness :
    (stcf_schedule stateC7).map (fun r => (r.1, r.2.readyqueue)) = some (some 0, [1]) := by
  have h := stcf_schedule_preempt_iff stateC7 0 rfl (by decide) (by decide) (by decide)
  exact h.1 (by decide)

/-- boostOne only changes the prio field. -/
theorem boostOne_status (maxPrio : Nat) (p : Process) :
    (boostOne maxPrio p).status = p.status := by
  simp [boostOne, apply_ite]

/-- boostOne keeps the age field. -/
theorem boostOne_age (maxPrio : Nat) (p : Process) :
    (boostOne maxPrio p).age = p.age := by
  simp [boostOne, apply_ite]

/-- boostOne keeps the lifespan field. -/
theorem boostOne_lifespan (maxPrio : Nat) (p : Process) :
    (boostOne maxPrio p).lifespan = p.lifespan := by
  simp [boostOne, apply_ite]

/-- Boosting a list of ids never changes a status field. -/
theorem boostList_status (maxPrio : Nat) (procs : Nat → Process) (l : List Nat) (q : Nat) :
    ((boostList maxPrio procs l) q).status = (procs q).status := by
  induction l generalizing procs with
  | nil => rfl
  | cons a t ih =>
    show ((boostList maxPrio (Function.update procs a (boostOne maxPrio (procs a))) t) q).status
      = (procs q).status
    rw [ih]
    by_cases hqa : q = a
    · subst hqa
      rw [Function.update_same, boostOne_status]
    · rw [Function.update_noteq hqa]

/-- Boosting a list of ids never changes an age field. -/
theorem boostList_age (maxPrio : Nat) (procs : Nat → Process) (l : List Nat) (q : Nat) :
    ((boostList maxPrio procs l) q).age = (procs q).age := by
  induction l generalizing procs with
  | nil => rfl
  | cons a t ih =>
    show ((boostList maxPrio (Function.update procs a (boostOne maxPrio (procs a))) t) q).age
      = (procs q).age
    rw [ih]
    by_cases hqa : q = a
    · subst hqa
      rw [Function.update_same, boostOne_age]
    · rw [Function.update_noteq hqa]

/-- Boosting a list of ids never changes a lifespan field. -/
theorem boostList_lifespan (maxPrio : Nat) (procs : Nat → Process) (l : List Nat) (q : Nat) :
    ((boostList maxPrio procs l) q).lifespan = (procs q).lifespan := by
  induction l generalizing procs with
  | nil => rfl
  | cons a t ih =>
    show ((boostList maxPrio (Function.update procs a (boostOne maxPrio (procs a))) t) q).lifespan
      = (procs q).lifespan
    rw [ih]
    by_cases hqa : q = a
    · subst hqa
      rw [Function.update_same, boostOne_lifespan]
    · rw [Function.update_noteq hqa]

/-- C8 (amended): the insertion the prepare step makes for a runnable
current process c whose priority differs from the readyqueue maximum
(in particular whenever a strictly higher-priority process is present),
with the policy auxiliary stack non-empty.  If the stack head priority
differs from the current priority, prio_schedule pushes c onto the HEAD
of the readyqueue (list_add, source line 493) while pcp_schedule and
pip_schedule append it to the tail (list_add_tail); if the stack head
priority equals the current priority, the policies push c onto the
auxiliary stack instead of the readyqueue.  Priority+Aging behaves like
PCP/PIP, with all conditions evaluated on the aged state produced by its
prologue. -/
theorem priority_prepare_insert_position (maxPrio : Nat) (s : State) (c h d : Nat) (t : List Nat)
    (hc : s.current = some c)
    (hnb : (s.procs c).status ≠ Status.BLOCKED)
    (hage : (s.procs c).age < (s.procs c).lifespan)
    (hh : get_highest_prio s = some h)
    (hne : (s.procs h).prio ≠ (s.procs c).prio) :
    (s.prio_stack = d :: t →
      ((s.procs d).prio ≠ (s.procs c).prio →
        prepView State.readyqueue (prio_prepare s) = some (c :: s.readyqueue)) ∧
      ((s.procs d).prio = (s.procs c).prio →
        prepView State.prio_stack (prio_prepare s) = some (c :: s.prio_stack))) ∧
    (s.pcp_stack = d :: t →
      ((s.procs d).prio ≠ (s.procs c).prio →
        prepView State.readyqueue (pcp_prepare s) = some (s.readyqueue ++ [c])) ∧
      ((s.procs d).prio = (s.procs c).prio →
        prepView State.pcp_stack (pcp_prepare s) = some (c :: s.pcp_stack))) ∧
    (s.pip_stack = d :: t →
      ((s.procs d).prio ≠ (s.procs c).prio →
        prepView State.readyqueue (pip_prepare s) = some (s.readyqueue ++ [c])) ∧
      ((s.procs d).prio = (s.procs c).prio →
        prepView State.pip_stack (pip_prepare s) = some (c :: s.pip_stack))) ∧
    (∀ h2 d2 t2,
      get_highest_prio (pa_aged maxPrio s) = some h2 →
      ((pa_aged maxPrio s).procs h2).prio ≠ ((pa_aged maxPrio s).procs c).prio →
      s.pa_stack = d2 :: t2 →
      (((pa_aged maxPrio s).procs d2).prio ≠ ((pa_aged maxPrio s).procs c).prio →
        prepView State.readyqueue (pa_prepare maxPrio s) = some (s.readyqueue ++ [c])) ∧
      (((pa_aged maxPrio s).procs d2).prio = ((pa_aged maxPrio s).procs c).prio →
        prepView State.pa_stack (pa_prepare maxPrio s) = some (c :: s.pa_stack))) := by
  refine ⟨?_, ?_, ?_, ?_⟩
  · intro hstack
    have hsp : get_stack_prio s = some ((s.procs d).prio) := by
      simp [get_stack_prio, hstack]
    constructor
    · intro hd
      simp only [prio_prepare, hc, if_neg hnb, if_pos hage, hh, if_neg hne, hsp, if_neg hd]
      rfl
    · intro hd
      simp only [prio_prepare, hc, if_neg hnb, if_pos hage, hh, if_neg hne, hsp, if_pos hd]
      rfl
  · intro hstack
    have hsp : get_pcpstack_prio s = some ((s.procs d).prio) := by
      simp [get_pcpstack_prio, hstack]
    constructor
    · intro hd
      simp only [pcp_prepare, hc, if_neg hnb, if_pos hage, hh, if_neg hne, hsp, if_neg hd]
      rfl
    · intro hd
      simp only [pcp_prepare, hc, if_neg hnb, if_pos hage, hh, if_neg hne, hsp, if_pos hd]
      rfl
  · intro hstack
    have hsp : get_pipstack_prio s = some ((s.procs d).prio) := by
      simp [get_pipstack_prio, hstack]
    constructor
    · intro hd
      simp only [pip_prepare, hc, if_neg hnb, if_pos hage, hh, if_neg hne, hsp, if_neg hd]
      rfl
    · intro hd
      simp only [pip_prepare, hc, if_neg hnb, if_pos hage, hh, if_neg hne, hsp, if_pos hd]
      rfl
  · intro h2 d2 t2 hh2 hne2 hstack2
    have haged : pa_aged maxPrio s
        = prio_boost maxPrio { s with procs := prio_reset s.procs c } := by
      simp [pa_aged, hc]
    have hcurA : (pa_aged maxPrio s).current = some c := by
      rw [haged]
      exact hc
    have hnbA : ((pa_aged maxPrio s).procs c).status ≠ Status.BLOCKED := by
      rw [haged]
      simp only [prio_boost, boostList_status]
      simp only [prio_reset, Function.update_same]
      exact hnb
    have hageA : ((pa_aged maxPrio s).procs c).age < ((pa_aged maxPrio s).procs c).lifespan := by
      rw [haged]
      simp only [prio_boost, boostList_age, boostList_lifespan]
      simp only [prio_reset, Function.update_same]
      exact hage
    have hstackA : (pa_aged maxPrio s).pa_stack = d2 :: t2 := by
      rw [haged]
      exact hstack2
    have hrqA : (pa_aged maxPrio s).readyqueue = s.readyqueue := by
      rw [haged]
      rfl
    have hsp2 : get_pastack_prio (pa_aged maxPrio s)
        = some (((pa_aged maxPrio s).procs d2).prio) := by
      simp [get_pastack_prio, hstackA]
    constructor
    · intro hd2
      simp only [pa_prepare, pa_prepare_core, hcurA, if_neg hnbA, if_pos hageA, hh2,
        if_neg hne2, hsp2, if_neg hd2]
      simp [prepView, hrqA]
    · intro hd2
      simp only [pa_prepare, pa_prepare_core, hcurA, if_neg hnbA, if_pos hageA, hh2,
        if_neg hne2, hsp2, if_pos hd2]
      simp [prepView, hstackA, hstack2]

/-- C8 counterexample: at stateC8 (current process 0 with prio 3, a
strictly higher prio 9 process 1 in the readyqueue, prio_stack head with
prio 7) the claim premises hold, yet the Priority prepare step pushes
process 0 onto the HEAD of the readyqueue: the pre-pick readyqueue is
[0, 1] and not the tail-appended [1, 0] the claim requires. -/
theorem prio_prepare_inserts_at_head :
    stateC8.current = some 0 ∧
    (stateC8.procs 0).status ≠ Status.BLOCKED ∧
    (stateC8.procs 0).age < (stateC8.procs 0).lifespan ∧
    1 ∈ stateC8.readyqueue ∧ (stateC8.procs 0).prio < (stateC8.procs 1).prio ∧
    prepView State.readyqueue (prio_prepare stateC8) = some [0, 1] ∧
    ([0, 1] : List Nat) ≠ [1] ++ [0] := by
  exact ⟨rfl, by decide, by decide, by decide, by decide, rfl, by decide⟩

/-- Witness: at stateC8 the Priority policy head-inserts (pre-pick
readyqueue [0, 1]) while PCP, PIP and Priority+Aging tail-append
(pre-pick readyqueue [1, 0]); with an equal-priority stack head each
policy would divert to its stack instead. -/
theorem priority_prepare_insert_position_witness :
    (prepView State.readyqueue (prio_prepare stateC8) = some [0, 1]) ∧
    (prepView State.readyqueue (pcp_prepare stateC8) = some [1, 0]) ∧
    (prepView State.readyqueue (pip_prepare stateC8) = some [1, 0]) ∧
    (prepView State.readyqueue (pa_prepare 100 stateC8) = some [1, 0]) := by
  have h := priority_prepare_insert_position 100 stateC8 0 1 3 [] rfl (by decide) (by decide)
    rfl (by decide)
  exact ⟨(h.1 rfl).1 (by decide), (h.2.1 rfl).1 (by decide), (h.2.2.1 rfl).1 (by decide),
    (h.2.2.2 1 3 [] rfl (by decide) rfl).1 (by decide)⟩

/-- C10 (amended): the prepare-step read of the auxiliary stack head is
unguarded.  When the current process is runnable and the readyqueue
maximum priority differs from the current priority while the policy
stack is EMPTY, prio_schedule, pcp_schedule and pip_schedule evaluate
get_stack_prio / get_pcpstack_prio / get_pipstack_prio on an empty list
(in C, list_first_entry of an empty list followed by a field read), so
the schedule call is undefined there, modelled none; the same holds for
pa_schedule with the conditions evaluated on the aged state.  Only the
pick_next final-correction read is guarded by an emptiness test. -/
theorem priority_prepare_unguarded_stack_read (maxPrio : Nat) (s : State) (c h : Nat)
    (hc : s.current = some c)
    (hnb : (s.procs c).status ≠ Status.BLOCKED)
    (hage : (s.procs c).age < (s.procs c).lifespan)
    (hh : get_highest_prio s = some h)
    (hne : (s.procs h).prio ≠ (s.procs c).prio) :
    (s.prio_stack = [] → prio_prepare s = none) ∧
    (s.pcp_stack = [] → pcp_prepare s = none) ∧
    (s.pip_stack = [] → pip_prepare s = none) ∧
    (∀ h2, get_highest_prio (pa_aged maxPrio s) = some h2 →
      ((pa_aged maxPrio s).procs h2).prio ≠ ((pa_aged maxPrio s).procs c).prio →
      s.pa_stack = [] → pa_prepare maxPrio s = none) := by
  refine ⟨?_, ?_, ?_, ?_⟩
  · intro hstack
    have hsp : get_stack_prio s = none := by
      simp [get_stack_prio, hstack]
    simp only [prio_prepare, hc, if_neg hnb, if_pos hage, hh, if_neg hne, hsp]
  · intro hstack
    have hsp : get_pcpstack_prio s = none := by
      simp [get_pcpstack_prio, hstack]
    simp only [pcp_prepare, hc, if_neg hnb, if_pos hage, hh, if_neg hne, hsp]
  · intro hstack
    have hsp : get_pipstack_prio s = none := by
      simp [get_pipstack_prio, hstack]
    simp only [pip_prepare, hc, if_neg hnb, if_pos hage, hh, if_neg hne, hsp]
  · intro h2 hh2 hne2 hstack2
    have haged : pa_aged maxPrio s
        = prio_boost maxPrio { s with procs := prio_reset s.procs c } := by
      simp [pa_aged, hc]
    have hcurA : (pa_aged maxPrio s).current = some c := by
      rw [haged]
      exact hc
    have hnbA : ((pa_aged maxPrio s).procs c).status ≠ Status.BLOCKED := by
      rw [haged]
      simp only [prio_boost, boostList_status]
      simp only [prio_reset, Function.update_same]
      exact hnb
    have hageA : ((pa_aged maxPrio s).procs c).age < ((pa_aged maxPrio s).procs c).lifespan := by
      rw [haged]
      simp only [prio_boost, boostList_age, boostList_lifespan]
      simp only [prio_reset, Function.update_same]
      exact hage
    have hstackA : (pa_aged maxPrio s).pa_stack = [] := by
      rw [haged]
      exact hstack2
    have hsp2 : get_pastack_prio (pa_aged maxPrio s) = none := by
      simp [get_pastack_prio, hstackA]
    simp only [pa_prepare, pa_prepare_core, hcurA, if_neg hnbA, if_pos hageA, hh2,
      if_neg hne2, hsp2]

/-- C10 counterexample: at stateC10 the current process 0 is runnable, the
readyqueue maximum prio 9 differs from the current prio 3, and prio_stack
is EMPTY — the conditions of the claim hold with an empty stack — and the
prio_schedule prepare step reaches its get_stack_prio read on that empty
list (undefined, modelled none). -/
theorem prio_prepare_reads_empty_stack :
    stateC10.current = some 0 ∧
    (stateC10.procs 0).status ≠ Status.BLOCKED ∧
    (stateC10.procs 0).age < (stateC10.procs 0).lifespan ∧
    get_highest_prio stateC10 = some 1 ∧
    (stateC10.procs 1).prio ≠ (stateC10.procs 0).prio ∧
    stateC10.prio_stack = [] ∧
    prio_prepare stateC10 = none := by
  exact ⟨rfl, by decide, by decide, rfl, by decide, rfl, rfl⟩

/-- Witness: at stateC10 every priority-family prepare step ends in the
undefined empty-stack read. -/
theorem priority_prepare_unguarded_stack_read_witness :
    prio_prepare stateC10 = none ∧ pcp_prepare stateC10 = none ∧
    pip_prepare stateC10 = none ∧ pa_prepare 100 stateC10 = none := by
  have h := priority_prepare_unguarded_stack_read 100 stateC10 0 1 rfl (by decide) (by decide)
    rfl (by decide)
  exact ⟨h.1 rfl, h.2.1 rfl, h.2.2.1 rfl, h.2.2.2 1 rfl (by decide) rfl⟩
